import Mathlib

/-!
Shallow embedding of the TCB-LOAN-APP chat assistant.

The repository contains three near-duplicate revisions of one single-page
application:

* `src/index.jsx` and `src/unnamed/part_000` (the `Index` namespace below):
  identical control flow; the file-upload handler performs no extension or
  emptiness check, and `handleSend` gates on
  `!input.trim() || !apiKey || !knowledgeBase || isLoading`.
* `src/App.tsx` (the `AppTsx` namespace below): its `handleFileUpload`
  rejects non-`.docx` names before extraction and rejects empty/whitespace
  extracted text.

Machine-irrelevant view code (markdown rendering, PWA install prompt,
styling) is out of scope, as are the external collaborators `mammoth`
(modelled by an abstract extraction result) and the Gemini client
(modelled by an abstract completion result).  Timestamps (`Date.now()`)
are modelled as an abstract `Nat` clock passed to each handler.
-/

/-- A chat message, from `src/unnamed/part_001` (`interface Message`). -/
inductive Role where
  | user
  | assistant
deriving DecidableEq, Repr

structure Message where
  id : String
  role : Role
  content : String
  timestamp : Nat
deriving DecidableEq, Repr

/-- One role-tagged turn of the outbound request (`contents` entry:
`\x7b role, parts: [\x7b text \x7d] \x7d` collapsed to one text part, as built in
`handleSend`). -/
structure Turn where
  role : String
  text : String
deriving DecidableEq, Repr

/-- The outbound completion request assembled in `handleSend`
(`ai.models.generateContent(\x7b model, contents, config \x7d)`).
`temperature: 0.1` is recorded in tenths to stay in exact arithmetic. -/
structure RequestPayload where
  model : String
  contents : List Turn
  systemInstruction : String
  temperatureTenths : Nat
deriving DecidableEq, Repr

/-- Executable model of JavaScript `String.prototype.trim`: drop leading
and trailing whitespace characters. -/
def jsTrim (s : String) : String :=
  ⟨((s.data.dropWhile Char.isWhitespace).reverse.dropWhile Char.isWhitespace).reverse⟩

/-- Executable model of JavaScript `String.prototype.toLowerCase`
(character-wise lowering suffices for the ASCII extensions compared here). -/
def jsToLower (s : String) : String :=
  ⟨s.data.map Char.toLower⟩

/-- Executable model of JavaScript `String.prototype.endsWith`. -/
def strEndsWith (s post : String) : Bool :=
  post.data.isSuffixOf s.data

/-- The fixed persona instruction `TCB_SYSTEM_PROMPT` of `src/index.jsx`. -/
def TCB_SYSTEM_PROMPT : String :=
  "你是合庫貸款專家，僅根據 114.12 版規章回答。回答需包含章節引用。請以專業、親切且簡潔的口吻回答。"

/-- The last `n` entries of the log in order, modelling `messages.slice(-6)`
(JavaScript `slice(-n)` keeps the elements from index `max(len - n, 0)`). -/
def recentWindow (l : List Message) (n : Nat) : List Message :=
  l.drop (l.length - n)

/-- Conversion of a stored message to an outbound turn, as in `handleSend`:
role `user` maps to the requester role and `assistant` to the model role;
only the role and the content enter the turn. -/
def toTurn (m : Message) : Turn :=
  { role := match m.role with
      | .user => "user"
      | .assistant => "model"
    text := m.content }

/-- Assembly of the outbound request in `handleSend` of `src/index.jsx`:
history window mapped to role-tagged turns, the new user text as the final
turn, and `systemInstruction: TCB_SYSTEM_PROMPT + "\n以下為規章內容：\n" + knowledgeBase`. -/
def buildPayload (systemPrompt : String) (doc : String)
    (history : List Message) (newUserText : String) : RequestPayload :=
  { model := "gemini-3-flash-preview"
    contents := (recentWindow history 6).map toTurn ++ [{ role := "user", text := newUserText }]
    systemInstruction := systemPrompt ++ "\n以下為規章內容：\n" ++ doc
    temperatureTenths := 1 }

namespace Index

/-- Component state of `src/index.jsx` (the `useState` hooks relevant to the
session logic; PWA fields are out of scope). `knowledgeBase` starts as
`null` (`none`). -/
structure AppState where
  apiKey : String
  knowledgeBase : Option String
  messages : List Message
  input : String
  isLoading : Bool
deriving DecidableEq, Repr

/-- JavaScript truthiness of a string: falsy exactly when empty. -/
def strTruthy (s : String) : Bool :=
  !(s == "")

/-- Truthiness of the `knowledgeBase` value: `null` and the empty string are
both falsy. -/
def kbTruthy : Option String → Bool
  | none => false
  | some t => strTruthy t

/-- Negation of the guard `if (!input.trim() || !apiKey || !knowledgeBase || isLoading) return;`
at the head of `handleSend`: the send proceeds exactly when this is true. -/
def sendAllowed (s : AppState) : Bool :=
  strTruthy (jsTrim s.input) && strTruthy s.apiKey && kbTruthy s.knowledgeBase && !s.isLoading

/-- The user message built at the top of `handleSend`: id from the clock,
role user, content the current input, timestamp the clock. -/
def userMessage (text : String) (now : Nat) : Message :=
  { id := toString now, role := .user, content := text, timestamp := now }

/-- The assistant message appended on a successful completion
(`\x7b id: 'bot-'+Date.now(), role: 'assistant', content: response.text, ... \x7d`). -/
def botMessage (text : String) (now : Nat) : Message :=
  { id := "bot-" ++ toString now, role := .assistant, content := text, timestamp := now }

/-- The synthetic assistant message appended in the `catch` branch of
`handleSend`. -/
def errMessage (now : Nat) : Message :=
  { id := "err-" ++ toString now, role := .assistant
    content := "⚠️ AI 連線發生錯誤。", timestamp := now }

/-- Outcome of the awaited completion call: `response.text` on success, or
any thrown error/rejection. -/
inductive CompletionResult where
  | success (text : String)
  | failure
deriving DecidableEq, Repr

def replyMessage : CompletionResult → Nat → Message
  | .success t, now => botMessage t now
  | .failure, now => errMessage now

/-- Primitive state-updating or outward-visible actions performed by the
handlers, in program order. -/
inductive Event where
  | appendMsg (m : Message)
  | clearInput
  | setLoading (b : Bool)
  | issueRequest (p : RequestPayload)
deriving DecidableEq, Repr

def applyEvent (s : AppState) : Event → AppState
  | .appendMsg m => { s with messages := s.messages ++ [m] }
  | .clearInput => { s with input := "" }
  | .setLoading b => { s with isLoading := b }
  | .issueRequest _ => s

/-- The sequence of actions `handleSend` performs, in the order the source
executes them.  The guard refuses with no action at all.  Otherwise:
append the user message, clear the input, set the loading flag, issue the
request (built from the closure values of `messages` and `input`, i.e. the
log as it was before the user message was appended), append the reply
(the model text on success, the synthetic error message in `catch`), and
clear the loading flag in `finally`. -/
def handleSendEvents (s : AppState) (now : Nat) (r : CompletionResult) : List Event :=
  if sendAllowed s then
    [ .appendMsg (userMessage s.input now),
      .clearInput,
      .setLoading true,
      .issueRequest (buildPayload TCB_SYSTEM_PROMPT (s.knowledgeBase.getD "") s.messages s.input),
      .appendMsg (replyMessage r now),
      .setLoading false ]
  else []

/-- Net state after `handleSend` has run to completion (the awaited
completion having resolved to `r`). -/
def handleSend (s : AppState) (now : Nat) (r : CompletionResult) : AppState :=
  List.foldl applyEvent s (handleSendEvents s now r)

/-- The completion requests issued during a sequence of events. -/
def issuedRequests (events : List Event) : List RequestPayload :=
  events.filterMap fun e =>
    match e with
    | .issueRequest p => some p
    | _ => none

/-- Result of awaiting `mammoth.extractRawText`: either `result.value` (a
string, possibly empty) or any thrown error carrying a message. -/
inductive ExtractResult where
  | ok (text : String)
  | err (msg : String)
deriving DecidableEq, Repr

/-- The document-load confirmation message appended by `handleFileUpload`
of `src/index.jsx`. -/
def loadedMessage (fileName : String) (now : Nat) : Message :=
  { id := "sys-" ++ toString now, role := .assistant
    content := "✅ **" ++ fileName ++ "** 已載入。\n\n請問您想了解哪類貸款？"
    timestamp := now }

/-- Model of `handleFileUpload` of `src/index.jsx`: with no file selected it returns
at once; otherwise it sets the loading flag and attempts extraction
unconditionally — there is no extension check and no check on `isLoading`.
On success the extracted text (even if empty) becomes the knowledge base
and a confirmation message is appended; on a thrown error only an `alert`
is shown (no state field changes).  `finally` clears the loading flag.
The returned `Bool` records whether extraction was attempted. -/
def handleFileUpload (s : AppState) (file : Option String)
    (extract : ExtractResult) (now : Nat) : AppState × Bool :=
  match file with
  | none => (s, false)
  | some name =>
    match extract with
    | .ok text =>
      ({ s with knowledgeBase := some text
                messages := s.messages ++ [loadedMessage name now]
                isLoading := false }, true)
    | .err _ => ({ s with isLoading := false }, true)

/-- The synthetic assistant greeting that is the initial `messages` state of
`src/index.jsx`.  Its startup timestamp is abstracted to `0`. -/
def greetingMessage : Message :=
  { id := "1", role := .assistant
    content := "您好，我是合庫貸款助手。\n\n請點擊右上角 **[上傳]** 按鈕，選擇 **114.12 版規章輯要 (.docx)** 檔案後，即可開始諮詢。"
    timestamp := 0 }

/-- Initial component state: `apiKey` is the stored credential or the empty
string (`localStorage.getItem('TCB_API_KEY') || ''`); no document; the
greeting as the only message; empty input; not loading. -/
def initState (stored : Option String) : AppState :=
  { apiKey := stored.getD ""
    knowledgeBase := none
    messages := [greetingMessage]
    input := ""
    isLoading := false }

/-- One user-triggered transition of the session: a send (with some clock
value and completion outcome), a file upload (with some extraction
outcome), an edit of the input field, or an edit of the credential field
(the key dialog writes `apiKey` on every change). -/
inductive Step : AppState → AppState → Prop
  | send (s : AppState) (now : Nat) (r : CompletionResult) :
      Step s (handleSend s now r)
  | upload (s : AppState) (file : Option String) (extract : ExtractResult) (now : Nat) :
      Step s (handleFileUpload s file extract now).1
  | editInput (s : AppState) (t : String) :
      Step s { s with input := t }
  | editApiKey (s : AppState) (t : String) :
      Step s { s with apiKey := t }

/-- States reachable from startup with stored credential `stored`. -/
inductive Reachable (stored : Option String) : AppState → Prop
  | init : Reachable stored (initState stored)
  | step {s s' : AppState} : Reachable stored s → Step s s' → Reachable stored s'

end Index

namespace AppTsx

/-- Component state of `src/App.tsx` (the hooks relevant to document
loading; the chat itself lives in the `ChatInterface` component, which is
not part of the sources). -/
structure State where
  knowledgeBase : Option String
  fileName : Option String
  isParsing : Bool
  errorMsg : Option String
deriving DecidableEq, Repr

def formatError : String := "格式錯誤：請上傳 .docx 格式。"

def emptyFileError : String := "檔案內容為空。"

/-- Model of `handleFileUpload` of `src/App.tsx`: clears `errorMsg`, rejects file
names not ending in `.docx` (lower-cased) before any extraction, then
extracts; extracted text that is empty or whitespace-only is turned into a
thrown `檔案內容為空。` error; any caught error sets `errorMsg` to
`讀取失敗：` plus the message and clears `fileName` and `knowledgeBase`.
The returned `Bool` records whether extraction was attempted. -/
def handleFileUpload (s : State) (file : Option String)
    (extract : Index.ExtractResult) : State × Bool :=
  match file with
  | none => (s, false)
  | some name =>
    let s1 : State := { s with errorMsg := none }
    if !(strEndsWith (jsToLower name) ".docx") then
      ({ s1 with errorMsg := some formatError }, false)
    else
      let s2 : State := { s1 with isParsing := true, fileName := some name }
      match extract with
      | .ok text =>
        if text == "" || jsTrim text == "" then
          ({ s2 with errorMsg := some ("讀取失敗：" ++ emptyFileError)
                     fileName := none, knowledgeBase := none
                     isParsing := false }, true)
        else
          ({ s2 with knowledgeBase := some text, errorMsg := none
                     isParsing := false }, true)
      | .err msg =>
        ({ s2 with errorMsg := some ("讀取失敗：" ++ msg)
                   fileName := none, knowledgeBase := none
                   isParsing := false }, true)

end AppTsx

namespace AppTsx

/-- A fresh `src/App.tsx` component state (all hooks at their initial
values). -/
def startState : State :=
  { knowledgeBase := none, fileName := none, isParsing := false, errorMsg := none }

end AppTsx

namespace Index

/-- A concrete `Ready` state (credential and document present, non-blank
input, no request in flight) used to instantiate theorems below. -/
def readyState : AppState :=
  { apiKey := "k", knowledgeBase := some "第一條 規章內容"
    messages := [greetingMessage], input := "青年創業貸款利率？", isLoading := false }

/-- A concrete state with a completion request in flight
(`isLoading = true`). -/
def inflightState : AppState :=
  { apiKey := "k", knowledgeBase := some "第一條 規章內容"
    messages := [greetingMessage], input := "追問", isLoading := true }

end Index

section Theorems

/-- Helper: whenever the guard of `handleSend` fires, the handler performs
no action at all: the state is returned unchanged and the event trace is
empty (in particular no request is issued). -/
theorem sendNoOp_of_not_allowed (s : Index.AppState) (now : Nat)
    (r : Index.CompletionResult) (h : Index.sendAllowed s = false) :
    Index.handleSend s now r = s ∧ Index.handleSendEvents s now r = [] := by
  refine ⟨?_, ?_⟩ <;> simp [Index.handleSend, Index.handleSendEvents, h]

/-- C1: whenever the input is empty or whitespace-only, or the credential is
empty, or no document is loaded, or the loading flag is already true, the
send action is a no-op: the state is unchanged (no message appended, input
not cleared, flag not set) and the event trace is empty, so no completion
request is issued. -/
theorem c1_send_refused_no_op (s : Index.AppState) (now : Nat)
    (r : Index.CompletionResult)
    (h : jsTrim s.input = "" ∨ s.apiKey = "" ∨ s.knowledgeBase = none ∨ s.isLoading = true) :
    Index.handleSend s now r = s ∧
    Index.handleSendEvents s now r = [] ∧
    Index.issuedRequests (Index.handleSendEvents s now r) = [] := by
  have hna : Index.sendAllowed s = false := by
    rcases h with h | h | h | h <;>
      simp [Index.sendAllowed, Index.strTruthy, Index.kbTruthy, h]
  have hmain := sendNoOp_of_not_allowed s now r hna
  exact ⟨hmain.1, hmain.2, by rw [hmain.2]; rfl⟩

/-- Witness for C1: the initial state has an empty input, and the send is a
no-op there. -/
theorem c1_send_refused_no_op_witness :
    Index.handleSend (Index.initState none) 3 .failure = Index.initState none ∧
    Index.handleSendEvents (Index.initState none) 3 .failure = [] := by
  have h := c1_send_refused_no_op (Index.initState none) 3 .failure (Or.inl (by decide))
  exact ⟨h.1, h.2.1⟩

/-- C2: every accepted send grows the conversation log by exactly two
messages — the user's message followed by the assistant reply on success,
or the user's message followed by the synthetic error message on failure —
and the rest of the log is untouched. -/
theorem c2_log_grows_by_two (s : Index.AppState) (now : Nat)
    (r : Index.CompletionResult) (h : Index.sendAllowed s = true) :
    (Index.handleSend s now r).messages
      = s.messages ++ [Index.userMessage s.input now, Index.replyMessage r now] ∧
    (Index.handleSend s now r).messages.length = s.messages.length + 2 := by
  constructor <;>
    simp [Index.handleSend, Index.handleSendEvents, h, Index.applyEvent]

/-- Witness for C2: a concrete ready state, successful completion. -/
theorem c2_log_grows_by_two_witness :
    (Index.handleSend Index.readyState 5 (.success "依第三條")).messages
      = Index.readyState.messages
        ++ [Index.userMessage Index.readyState.input 5,
            Index.replyMessage (.success "依第三條") 5] ∧
    (Index.handleSend Index.readyState 5 (.success "依第三條")).messages.length
      = Index.readyState.messages.length + 2 :=
  c2_log_grows_by_two Index.readyState 5 (.success "依第三條") (by decide)


/-- C5: on every accepted send the append of the user message is the event
at position 0 of the trace and the request issue is the event at position
3, so the user message is appended to the log strictly before the outbound
request is issued; moreover after a failed completion the log ends with the
user turn followed by the synthetic failure turn, and the loading flag is
false again. -/
theorem c5_user_appended_before_request (s : Index.AppState) (now : Nat)
    (r : Index.CompletionResult) (h : Index.sendAllowed s = true) :
    ((Index.handleSendEvents s now r)[0]?
        = some (.appendMsg (Index.userMessage s.input now)) ∧
     (Index.handleSendEvents s now r)[3]?
        = some (.issueRequest
            (buildPayload TCB_SYSTEM_PROMPT (s.knowledgeBase.getD "") s.messages s.input))) ∧
    (Index.handleSend s now .failure).messages
      = s.messages ++ [Index.userMessage s.input now, Index.errMessage now] ∧
    (Index.handleSend s now .failure).isLoading = false := by
  refine ⟨⟨?_, ?_⟩, ?_, ?_⟩ <;>
    simp [Index.handleSendEvents, Index.handleSend, Index.applyEvent,
      Index.replyMessage, h]

/-- Witness for C5: the concrete ready state. -/
theorem c5_user_appended_before_request_witness :
    ((Index.handleSendEvents Index.readyState 5 .failure)[0]?
        = some (.appendMsg (Index.userMessage Index.readyState.input 5)) ∧
     (Index.handleSendEvents Index.readyState 5 .failure)[3]?
        = some (.issueRequest
            (buildPayload TCB_SYSTEM_PROMPT (Index.readyState.knowledgeBase.getD "")
              Index.readyState.messages Index.readyState.input))) ∧
    (Index.handleSend Index.readyState 5 .failure).messages
      = Index.readyState.messages
        ++ [Index.userMessage Index.readyState.input 5, Index.errMessage 5] ∧
    (Index.handleSend Index.readyState 5 .failure).isLoading = false :=
  c5_user_appended_before_request Index.readyState 5 .failure (by decide)

/-- Counterexample to C6: in the `src/index.jsx` revision the upload
handler never consults the loading flag, so a document load does start
while a completion request is in flight: from a state with
`isLoading = true`, `handleFileUpload` attempts extraction and replaces
the knowledge base. -/
theorem c6_counterexample :
    Index.inflightState.isLoading = true ∧
    (Index.handleFileUpload Index.inflightState (some "rules.docx") (.ok "新版規章") 7).2
      = true ∧
    (Index.handleFileUpload Index.inflightState (some "rules.docx") (.ok "新版規章") 7).1.knowledgeBase
      = some "新版規章" :=
  ⟨rfl, rfl, rfl⟩

/-- C6 (amended): while any operation is in flight (the shared loading
flag is true) no new send can start — the send action is a no-op with an
empty event trace; a document load, however, is not gated on the flag. -/
theorem c6_amended_no_send_while_loading (s : Index.AppState) (now : Nat)
    (r : Index.CompletionResult) (h : s.isLoading = true) :
    Index.handleSend s now r = s ∧ Index.handleSendEvents s now r = [] := by
  refine sendNoOp_of_not_allowed s now r ?_
  simp [Index.sendAllowed, h]

/-- Witness for the amended C6: the concrete in-flight state. -/
theorem c6_amended_no_send_while_loading_witness :
    Index.handleSend Index.inflightState 9 (.success "x") = Index.inflightState ∧
    Index.handleSendEvents Index.inflightState 9 (.success "x") = [] :=
  c6_amended_no_send_while_loading Index.inflightState 9 (.success "x") rfl

/-- C7: `recentWindow l n` has at most `n` entries and is a suffix of the
log (hence the most recent entries in their original relative order), and
the contents of every built payload are exactly the 6-entry window mapped
to turns followed by the new user turn as the final turn. -/
theorem c7_recent_window_bounded :
    (∀ (l : List Message) (n : Nat),
        (recentWindow l n).length ≤ n ∧ recentWindow l n <:+ l) ∧
    (∀ (sp doc : String) (l : List Message) (t : String),
        (buildPayload sp doc l t).contents
          = (recentWindow l 6).map toTurn ++ [{ role := "user", text := t }]) := by
  refine ⟨fun l n => ⟨?_, List.drop_suffix _ _⟩, fun sp doc l t => rfl⟩
  simp only [recentWindow, List.length_drop]
  omega

/-- C8: payload construction is a pure deterministic function of its
inputs and only the roles and contents of the history enter it — two
histories identical up to message ids and timestamps yield identical
payloads — and the system instruction is the persona instruction
concatenated with the separator and the raw document text verbatim (the
document is an untruncated suffix). -/
theorem c8_payload_pure_deterministic :
    (∀ (sp doc : String) (h1 h2 : List Message) (t : String),
        h1.map (fun m => (m.role, m.content)) = h2.map (fun m => (m.role, m.content)) →
        buildPayload sp doc h1 t = buildPayload sp doc h2 t) ∧
    (∀ (sp doc : String) (l : List Message) (t : String),
        (buildPayload sp doc l t).systemInstruction
          = sp ++ "\n以下為規章內容：\n" ++ doc ∧
        ∃ pre : String, (buildPayload sp doc l t).systemInstruction = pre ++ doc) := by
  constructor
  · intro sp doc h1 h2 t hmap
    have hlen : h1.length = h2.length := by
      have := congrArg List.length hmap
      simpa using this
    have key : ∀ (l : List Message),
        l.map toTurn = (l.map fun m => (m.role, m.content)).map
          (fun p : Role × String =>
            ({ role := match p.1 with
                 | Role.user => "user"
                 | Role.assistant => "model"
               text := p.2 } : Turn)) := by
      intro l
      rw [List.map_map]
      rfl
    have hmapturn : h1.map toTurn = h2.map toTurn := by
      rw [key h1, key h2, hmap]
    have hwin : (recentWindow h1 6).map toTurn = (recentWindow h2 6).map toTurn := by
      simp only [recentWindow, List.map_drop, hmapturn, hlen]
    simp [buildPayload, hwin]
  · intro sp doc l t
    refine ⟨rfl, sp ++ "\n以下為規章內容：\n", ?_⟩
    rfl

/-- Witness for C8: two one-message histories differing only in id and
timestamp give identical payloads. -/
theorem c8_payload_pure_deterministic_witness :
    buildPayload TCB_SYSTEM_PROMPT "規章"
        [{ id := "a", role := .user, content := "x", timestamp := 1 }] "t"
      = buildPayload TCB_SYSTEM_PROMPT "規章"
        [{ id := "b", role := .user, content := "x", timestamp := 9 }] "t" :=
  c8_payload_pure_deterministic.1 TCB_SYSTEM_PROMPT "規章" _ _ "t" rfl

/-- Helper: a session step never removes or edits log entries: the old log
is a prefix of the new one. -/
theorem step_extends_log {s s' : Index.AppState} (h : Index.Step s s') :
    s.messages <+: s'.messages := by
  cases h with
  | send now r =>
    by_cases hg : Index.sendAllowed s = true
    · refine ⟨[Index.userMessage s.input now, Index.replyMessage r now], ?_⟩
      simp [Index.handleSend, Index.handleSendEvents, hg, Index.applyEvent]
    · have hs := sendNoOp_of_not_allowed s now r (by simpa using hg)
      rw [hs.1]
  | upload file extract now =>
    cases file with
    | none => exact List.prefix_refl _
    | some name =>
      cases extract with
      | ok text => exact ⟨[Index.loadedMessage name now], rfl⟩
      | err msg => exact List.prefix_refl _
  | editInput t => exact List.prefix_refl _
  | editApiKey t => exact List.prefix_refl _

/-- Helper: extending a log on the right keeps it non-empty with the same
first element. -/
theorem head_of_extends {g : Message} {l l' : List Message}
    (h : l <+: l') (hg : l.head? = some g) : l' ≠ [] ∧ l'.head? = some g := by
  obtain ⟨rest, hrest⟩ := h
  cases l with
  | nil => simp at hg
  | cons a tl =>
    simp only [List.head?_cons, Option.some.injEq] at hg
    subst hg
    subst hrest
    simp

/-- C9: in every reachable state the conversation log is non-empty and its
first element is the synthetic assistant greeting of session start, and
every session step (send with reply or error, document-load confirmation,
input or credential edit) only appends to the end of the log. -/
theorem c9_greeting_first_invariant :
    (∀ (stored : Option String) (s : Index.AppState), Index.Reachable stored s →
        s.messages ≠ [] ∧ s.messages.head? = some Index.greetingMessage) ∧
    (∀ (s s' : Index.AppState), Index.Step s s' → s.messages <+: s'.messages) := by
  constructor
  · intro stored s h
    induction h with
    | init => exact ⟨by simp [Index.initState], rfl⟩
    | step hr hstep ih => exact head_of_extends (step_extends_log hstep) ih.2
  · exact fun s s' h => step_extends_log h

/-- Witness for C9: the initial state, and one send step from it. -/
theorem c9_greeting_first_invariant_witness :
    (Index.initState none).messages ≠ [] ∧
    (Index.initState none).messages.head? = some Index.greetingMessage ∧
    (Index.initState none).messages
      <+: (Index.handleSend (Index.initState none) 0 .failure).messages := by
  have h1 := c9_greeting_first_invariant.1 none (Index.initState none) Index.Reachable.init
  have h2 := c9_greeting_first_invariant.2 (Index.initState none) _
    (Index.Step.send (Index.initState none) 0 .failure)
  exact ⟨h1.1, h1.2, h2⟩

/-- C10: the single request an accepted send issues is built from the log
as it was before the user's message was appended; its contents are the
6-entry window of that log followed by the new user turn, and when the
submitted text occurs in no logged message the text occurs in exactly one
turn of the payload (the final one). -/
theorem c10_window_excludes_new_message (s : Index.AppState) (now : Nat)
    (r : Index.CompletionResult) (h : Index.sendAllowed s = true)
    (hfresh : ∀ m ∈ s.messages, m.content ≠ s.input) :
    Index.issuedRequests (Index.handleSendEvents s now r)
      = [buildPayload TCB_SYSTEM_PROMPT (s.knowledgeBase.getD "") s.messages s.input] ∧
    (buildPayload TCB_SYSTEM_PROMPT (s.knowledgeBase.getD "") s.messages s.input).contents
      = (recentWindow s.messages 6).map toTurn ++ [{ role := "user", text := s.input }] ∧
    ((buildPayload TCB_SYSTEM_PROMPT (s.knowledgeBase.getD "") s.messages s.input).contents.countP
        fun turn => turn.text == s.input) = 1 := by
  refine ⟨?_, rfl, ?_⟩
  · simp [Index.issuedRequests, Index.handleSendEvents, h]
  · simp only [buildPayload, List.countP_append]
    have hz : (((recentWindow s.messages 6).map toTurn).countP
        fun turn => turn.text == s.input) = 0 := by
      rw [List.countP_eq_zero]
      intro a ha
      obtain ⟨m, hm, rfl⟩ := List.mem_map.mp ha
      have hmem : m ∈ s.messages := (List.drop_suffix _ _).subset hm
      have hne : m.content ≠ s.input := hfresh m hmem
      simp [toTurn, hne]
    rw [hz]
    simp

/-- Witness for C10: the concrete ready state, whose submitted text occurs
in no logged message. -/
theorem c10_window_excludes_new_message_witness :
    Index.issuedRequests (Index.handleSendEvents Index.readyState 5 .failure)
      = [buildPayload TCB_SYSTEM_PROMPT (Index.readyState.knowledgeBase.getD "")
          Index.readyState.messages Index.readyState.input] ∧
    ((buildPayload TCB_SYSTEM_PROMPT (Index.readyState.knowledgeBase.getD "")
        Index.readyState.messages Index.readyState.input).contents.countP
      fun turn => turn.text == Index.readyState.input) = 1 := by
  have h := c10_window_excludes_new_message Index.readyState 5 .failure
    (by decide) (by decide)
  exact ⟨h.1, h.2.2⟩

/-- Counterexample to C3: the `src/index.jsx` revision performs no
extension check in its upload handler: a file named `rules.pdf` is passed
to extraction (extraction attempted) and its text replaces the knowledge
base, with no rejection. -/
theorem c3_counterexample :
    (Index.handleFileUpload (Index.initState (some "k")) (some "rules.pdf")
        (.ok "第一條 內容") 5).2 = true ∧
    (Index.handleFileUpload (Index.initState (some "k")) (some "rules.pdf")
        (.ok "第一條 內容") 5).1.knowledgeBase = some "第一條 內容" :=
  ⟨rfl, rfl⟩

/-- C3 (amended): in the `src/App.tsx` revision every uploaded file whose
name does not end in `.docx` (case-insensitively) is rejected before any
extraction is attempted: an error message is set and the knowledge base
and stored file name are unchanged.  The `src/index.jsx` revisions perform
no extension check in the handler. -/
theorem c3_amended_apptsx_rejects_extension (s : AppTsx.State) (name : String)
    (ex : Index.ExtractResult) (h : strEndsWith (jsToLower name) ".docx" = false) :
    (AppTsx.handleFileUpload s (some name) ex).2 = false ∧
    (AppTsx.handleFileUpload s (some name) ex).1.knowledgeBase = s.knowledgeBase ∧
    (AppTsx.handleFileUpload s (some name) ex).1.fileName = s.fileName ∧
    (AppTsx.handleFileUpload s (some name) ex).1.errorMsg = some AppTsx.formatError := by
  refine ⟨?_, ?_, ?_, ?_⟩ <;> simp [AppTsx.handleFileUpload, h]

/-- Witness for the amended C3: a fresh state and a file named
`rules.pdf`. -/
theorem c3_amended_apptsx_rejects_extension_witness :
    (AppTsx.handleFileUpload AppTsx.startState (some "rules.pdf") (.ok "x")).2 = false ∧
    (AppTsx.handleFileUpload AppTsx.startState (some "rules.pdf") (.ok "x")).1.knowledgeBase
      = AppTsx.startState.knowledgeBase ∧
    (AppTsx.handleFileUpload AppTsx.startState (some "rules.pdf") (.ok "x")).1.fileName
      = AppTsx.startState.fileName ∧
    (AppTsx.handleFileUpload AppTsx.startState (some "rules.pdf") (.ok "x")).1.errorMsg
      = some AppTsx.formatError :=
  c3_amended_apptsx_rejects_extension AppTsx.startState "rules.pdf" (.ok "x") (by decide)

/-- Counterexample to C4: the `src/index.jsx` revision performs no
emptiness check: extraction returning the empty string sets the knowledge
base to the empty text with no error reported. -/
theorem c4_counterexample :
    (Index.handleFileUpload (Index.initState (some "k")) (some "rules.docx")
        (.ok "") 5).1.knowledgeBase = some "" ∧
    (Index.handleFileUpload (Index.initState (some "k")) (some "rules.docx")
        (.ok "") 5).2 = true :=
  ⟨rfl, rfl⟩

/-- C4 (amended): in the `src/App.tsx` revision, whenever extraction throws
or returns text that is empty after trimming whitespace, the load fails:
an error message is set and both the knowledge base and the stored file
name are cleared.  The `src/index.jsx` revisions assign the extracted text
to the knowledge base without any emptiness check, and on a thrown error
only show an alert. -/
theorem c4_amended_apptsx_empty_or_corrupt (s : AppTsx.State) (name : String)
    (ex : Index.ExtractResult)
    (hname : strEndsWith (jsToLower name) ".docx" = true)
    (hbad : ∀ t, ex = .ok t → jsTrim t = "") :
    (AppTsx.handleFileUpload s (some name) ex).1.knowledgeBase = none ∧
    (AppTsx.handleFileUpload s (some name) ex).1.fileName = none ∧
    (AppTsx.handleFileUpload s (some name) ex).1.errorMsg.isSome = true := by
  cases ex with
  | ok t =>
    have ht : jsTrim t = "" := hbad t rfl
    refine ⟨?_, ?_, ?_⟩ <;> simp [AppTsx.handleFileUpload, hname, ht]
  | err msg =>
    refine ⟨?_, ?_, ?_⟩ <;> simp [AppTsx.handleFileUpload, hname]

/-- Witness for the amended C4: a fresh state, a `.docx` name and
whitespace-only extracted text. -/
theorem c4_amended_apptsx_empty_or_corrupt_witness :
    (AppTsx.handleFileUpload AppTsx.startState (some "rules.docx") (.ok "   ")).1.knowledgeBase
      = none ∧
    (AppTsx.handleFileUpload AppTsx.startState (some "rules.docx") (.ok "   ")).1.fileName
      = none ∧
    (AppTsx.handleFileUpload AppTsx.startState (some "rules.docx") (.ok "   ")).1.errorMsg.isSome
      = true := by
  refine c4_amended_apptsx_empty_or_corrupt AppTsx.startState "rules.docx" (.ok "   ")
    (by decide) ?_
  intro t ht
  injection ht with h2
  subst h2
  decide
